import Mathlib

/-!
A shallow embedding of the query-cursor execution engine of `src/cursor.c`
(the APSW cursor): the cursor state machine (`C_BEGIN`/`C_ROW`/`C_DONE`),
parameter binding (`APSWCursor_dobinding` / `APSWCursor_dobindings`),
`resetcursor`, the step loop (`APSWCursor_step`), and the public operations
`execute`, `executemany`, `next` (fetch), `close` and the trace setters.

The external collaborators are modelled at their boundary: the statement
cache compiles the first statement of a batch and keeps the remaining
statements (`prepare`), and the engine steps a compiled statement producing
a finite list of rows (`sqliteStep`).  Rows are either a fixed list or the
row echoing the current parameter values (covering statements such as
`select :a, :b`); engine bind calls are recorded in the statement so that
mutation of the statement state by the binder is observable.  Unbounded
loops in the C code are realised with an explicit fuel argument computed
from the state, mirroring one loop iteration per fuel unit.
-/

namespace APSW

/-- The engine's 32-bit signed maximum for text/blob lengths
(`APSW_INT32_MAX` in the C source). -/
def APSW_INT32_MAX : Nat := 2147483647

/-- A value as stored in the engine after a bind call
(`sqlite3_bind_null` / `_int64` / `_double` / `_text` / `_blob` / `_zeroblob`). -/
inductive SQLValue where
  | null
  | int (v : Int)
  | real (bits : Nat)
  | text (bytes : List Nat)
  | blob (bytes : List Nat)
  | zeroblob (n : Nat)
deriving DecidableEq, Repr

/-- A result row: the ordered sequence of column values. -/
abbrev Row := List SQLValue

/-- A caller-side (Python) value supplied as a binding.  Text carries its
encoded byte sequence, buffers carry their bytes, `vother` stands for any
unsupported type. -/
inductive PyValue where
  | vnone
  | vint (v : Int)
  | vfloat (bits : Nat)
  | vstr (encoded : List Nat)
  | vbuffer (bytes : List Nat)
  | vzeroblob (n : Nat)
  | vother (tyname : String)
deriving DecidableEq, Repr

/-- How a compiled statement produces rows when stepped: either a fixed
list of rows, or a single row echoing the bound parameter values
(the behaviour of a statement like `select :a, :b`). -/
inductive RowGen where
  | fixed (rows : List Row)
  | echoParams
deriving DecidableEq, Repr

/-- One statement of a batch as the engine sees it: its text, the declared
parameter names for positions `1..n` (`none` = unnamed `?` parameter, a
`some` name carries the `:`/`$` marker prefix as
`sqlite3_bind_parameter_name` returns it), and its row generator. -/
structure StmtSpec where
  text : String
  params : List (Option String)
  gen : RowGen
deriving DecidableEq, Repr

/-- A batch of semicolon-separated statements submitted to `execute`. -/
abbrev Query := List StmtSpec

/-- A validated binding set: a name-to-value mapping or an ordered sequence. -/
inductive Bindings where
  | dict (m : List (String × PyValue))
  | seq (l : List PyValue)
deriving DecidableEq, Repr

/-- A caller-supplied Python object in binding position: a dict, something
convertible by `PySequence_Fast`, or anything else. -/
inductive PyObj where
  | dict (m : List (String × PyValue))
  | seq (l : List PyValue)
  | other (tyname : String)
deriving DecidableEq, Repr

/-- `PyDict_Check` / `PySequence_Fast`: dicts pass through, sequences are
converted, anything else raises `TypeError` (`none`). -/
def toBindings : PyObj → Option Bindings
  | .dict m => some (.dict m)
  | .seq l => some (.seq l)
  | .other _ => none

/-- The error taxonomy of the cursor paths modelled here. -/
inductive CErr where
  | bindingsError
  | typeError
  | toobig
  | overflowError
  | incompleteExecutionError
  | execTraceAbort
  | connectionClosed
  | prepareError
  | internalError
deriving DecidableEq, Repr

/-- The cursor execution state (`C_BEGIN`, `C_ROW`, `C_DONE`). -/
inductive CStatus where
  | BEGIN
  | ROW
  | DONE
deriving DecidableEq, Repr

/-- A borrowed compiled statement: its spec, the remaining statements of
the batch (`statement->next`), the bind calls issued so far, whether the
engine has started stepping it, the rows not yet stepped past, and the row
made available by the last `SQLITE_ROW` step. -/
structure Statement where
  spec : StmtSpec
  next : List StmtSpec
  bound : List (Nat × SQLValue)
  materialized : Bool
  rows : List Row
  current : Option Row
deriving DecidableEq, Repr

/-- An execution tracer: receives the statement text and the bindings view,
returns the truthiness of its result. -/
abbrev ExecTrace := String → Option Bindings → Bool

/-- A row tracer: `none` is the null/none sentinel requesting a skip, a
`some` is the replacement row. -/
abbrev RowTrace := Row → Option Row

/-- The cursor object (`struct APSWCursor`).  `connectionOpen` mirrors
`connection->db != NULL`. -/
structure Cursor where
  connectionOpen : Bool
  statement : Option Statement
  status : CStatus
  bindings : Option Bindings
  bindingsoffset : Int
  emiter : Option (List PyObj)
  emoriginalquery : Option Query
  exectrace : Option ExecTrace
  rowtrace : Option RowTrace

/-- `APSWCursor_init`: fresh cursor of an open connection. -/
def initialCursor : Cursor :=
  ⟨true, none, .DONE, none, 0, none, none, none, none⟩

/-- Valuation of the engine parameters from the recorded bind calls:
the last bind for a position wins, positions never bound are SQL null. -/
def valOf (bound : List (Nat × SQLValue)) (i : Nat) : SQLValue :=
  match (bound.filter (fun p => p.1 == i)).getLast? with
  | some p => p.2
  | none => .null

/-- Rows produced by a statement given its parameter valuation. -/
def genRows (g : RowGen) (n : Nat) (val : Nat → SQLValue) : List Row :=
  match g with
  | .fixed rows => rows
  | .echoParams => [(List.range n).map (fun i => val (i + 1))]

/-- Number of rows a generator will produce (independent of the valuation). -/
def genCount : RowGen → Nat
  | .fixed rows => rows.length
  | .echoParams => 1

/-- `statementcache_prepare`: compile the first statement of the batch,
keeping the remaining text; fails on an unparseable batch. -/
def prepare : Query → Option Statement
  | [] => none
  | s :: rest => some ⟨s, rest, [], false, [], none⟩

/-- Result of one `sqlite3_step`. -/
inductive StepR where
  | row
  | done
deriving DecidableEq, Repr

/-- On the first step the engine fixes the rows from the current bindings. -/
def materializeStmt (st : Statement) : Statement :=
  if st.materialized then st
  else { st with materialized := true,
                 rows := genRows st.spec.gen st.spec.params.length (valOf st.bound) }

/-- `sqlite3_step`: yield the next row, or report the statement done. -/
def sqliteStep (st : Statement) : StepR × Statement :=
  let st1 := materializeStmt st
  match st1.rows with
  | r :: rest => (.row, { st1 with rows := rest, current := some r })
  | [] => (.done, st1)

/-- `APSWCursor_dobinding`: one parameter bind.  Returns the engine bind
call issued, if any, and the error raised, if any.  Out-of-range integers
mirror `PyLong_AsLongLong` (the bind still happens, with `-1`); oversized
text/blob raises `SQLITE_TOOBIG` before any engine call. -/
def dobinding (arg : Nat) (obj : PyValue) : Option (Nat × SQLValue) × Option CErr :=
  match obj with
  | .vnone => (some (arg, .null), none)
  | .vint v =>
      if v < -(2 ^ 63 : Int) ∨ (2 ^ 63 : Int) ≤ v then
        (some (arg, .int (-1)), some .overflowError)
      else (some (arg, .int v), none)
  | .vfloat b => (some (arg, .real b), none)
  | .vstr bytes =>
      if APSW_INT32_MAX < bytes.length then (none, some .toobig)
      else (some (arg, .text bytes), none)
  | .vbuffer bytes =>
      if APSW_INT32_MAX < bytes.length then (none, some .toobig)
      else (some (arg, .blob bytes), none)
  | .vzeroblob n => (some (arg, .zeroblob n), none)
  | .vother _ => (none, some .typeError)

/-- The SQL value a cleanly bindable Python value is bound as. -/
def expectedSQL : PyValue → SQLValue
  | .vnone => .null
  | .vint v => .int v
  | .vfloat b => .real b
  | .vstr bytes => .text bytes
  | .vbuffer bytes => .blob bytes
  | .vzeroblob n => .zeroblob n
  | .vother _ => .null

/-- Sequence-mode bind loop: bind `k` values starting at parameter
position `arg`, taking values from list index `idx` onwards. -/
def bindSeq (l : List PyValue) : Nat → Nat → Nat → List (Nat × SQLValue) × Option CErr
  | 0, _, _ => ([], none)
  | k + 1, arg, idx =>
      let r := dobinding arg (l.getD idx .vnone)
      match r.2 with
      | some e => (r.1.toList, some e)
      | none =>
          let rest := bindSeq l k (arg + 1) (idx + 1)
          (r.1.toList ++ rest.1, rest.2)

/-- `PyDict_GetItem` on the association-list model of a dict. -/
def lookupD (m : List (String × PyValue)) (key : String) : Option PyValue :=
  (m.find? (fun p => p.1 == key)).map Prod.snd

/-- Mapping-mode bind loop: for each parameter position, an unnamed
parameter is an error, a missing key is silently skipped, a present value
is bound.  The declared name carries its marker character, which is
stripped before lookup. -/
def bindDict (m : List (String × PyValue)) :
    List (Option String) → Nat → List (Nat × SQLValue) × Option CErr
  | [], _ => ([], none)
  | p :: rest, arg =>
      match p with
      | none => ([], some .bindingsError)
      | some name =>
          match lookupD m (name.drop 1) with
          | none => bindDict m rest (arg + 1)
          | some obj =>
              let r := dobinding arg obj
              match r.2 with
              | some e => (r.1.toList, some e)
              | none =>
                  let rest2 := bindDict m rest (arg + 1)
                  (r.1.toList ++ rest2.1, rest2.2)

/-- Outcome of the parameter resolver: the engine bind calls issued, the
binding offset after the call, and the error, if any. -/
structure BindResult where
  binds : List (Nat × SQLValue)
  newoff : Int
  err : Option CErr
deriving DecidableEq, Repr

/-- `APSWCursor_dobindings` as a pure resolver over the statement's
declared parameters, whether another statement follows in the batch, the
supplied bindings and the current sequence offset. -/
def dobindingsCore (params : List (Option String)) (hasNext : Bool)
    (b : Option Bindings) (off : Int) : BindResult :=
  let nargs := params.length
  match b with
  | none =>
      if nargs = 0 then ⟨[], off, none⟩ else ⟨[], off, some .bindingsError⟩
  | some (.dict m) =>
      let r := bindDict m params 1
      ⟨r.1, off, r.2⟩
  | some (.seq l) =>
      let sz : Int := l.length
      if hasNext = true ∧ sz - off < nargs then ⟨[], off, some .bindingsError⟩
      else if hasNext = false ∧ sz - off ≠ nargs then ⟨[], off, some .bindingsError⟩
      else
        let r := bindSeq l nargs 1 off.toNat
        match r.2 with
        | some e => ⟨r.1, off, some e⟩
        | none => ⟨r.1, off + nargs, none⟩

/-- Record the resolver's bind calls on the statement. -/
def applyBinds (st : Statement) (binds : List (Nat × SQLValue)) : Statement :=
  { st with bound := st.bound ++ binds }

/-- Run the resolver against the cursor's current statement and bindings,
recording the issued bind calls and the new offset on the cursor. -/
def dobindingsApply (c : Cursor) : Cursor × Option CErr :=
  match c.statement with
  | none => (c, some .internalError)
  | some st =>
      let r := dobindingsCore st.spec.params (!st.next.isEmpty) c.bindings c.bindingsoffset
      ({ c with statement := some (applyBinds st r.binds), bindingsoffset := r.newoff },
       r.err)

/-- `PySequence_GetSlice l saved cur` for the execution-trace bindings view. -/
def sliceList (l : List PyValue) (a b : Int) : List PyValue :=
  (l.take b.toNat).drop a.toNat

/-- The bindings argument handed to the execution tracer: a dict as is, a
sequence as the slice consumed by the current statement, `none` otherwise. -/
def execTraceView (b : Option Bindings) (saved cur : Int) : Option Bindings :=
  match b with
  | none => none
  | some (.dict m) => some (.dict m)
  | some (.seq l) => some (.seq (sliceList l saved cur))

/-- `APSWCursor_doexectrace`: call the tracer with the statement text and
the bindings view; a falsy return raises `ExcTraceAbort`. -/
def doexectrace (c : Cursor) (saved : Int) : Option CErr :=
  match c.exectrace with
  | none => none
  | some f =>
      let text := match c.statement with
        | some st => st.spec.text
        | none => ""
      if f text (execTraceView c.bindings saved c.bindingsoffset) then none
      else some .execTraceAbort

/-- Is there remaining batch text behind the current statement? -/
def hasNextQuery (c : Cursor) : Bool :=
  match c.statement with
  | some st => !st.next.isEmpty
  | none => false

/-- Does the bulk-iteration source still yield an element? -/
def emHasNext (c : Cursor) : Bool :=
  match c.emiter with
  | some (_ :: _) => true
  | _ => false

/-- `resetcursor`: release bindings and statement, clear the bulk state,
end in `DONE`.  With `force` the pending error `prior` is stashed and
restored; without it an abandoned batch or bulk source raises
`ExcIncomplete` (unless an error is already pending). -/
def resetcursor (c : Cursor) (force : Bool) (prior : Option CErr) :
    Cursor × Option CErr :=
  let cleared : Cursor :=
    { c with bindings := none, bindingsoffset := -1, statement := none,
             emiter := none, emoriginalquery := none, status := .DONE }
  let err : Option CErr :=
    if force then prior
    else if c.status ≠ CStatus.DONE ∧ (hasNextQuery c = true ∨ emHasNext c = true) then
      some (prior.getD .incompleteExecutionError)
    else prior
  (cleared, err)

/-- Bind the current statement's parameters and run the execution trace,
as done for each statement before it is first stepped. -/
def bindTrace (c : Cursor) : Cursor × Option CErr :=
  let saved := c.bindingsoffset
  let r := dobindingsApply c
  match r.2 with
  | some e => (r.1, some e)
  | none =>
      match doexectrace r.1 saved with
      | some e => (r.1, some e)
      | none => (r.1, none)

/-- Length of the bulk-iteration source. -/
def emiterLen (c : Cursor) : Nat :=
  match c.emiter with
  | some l => l.length
  | none => 0

/-- Number of statements remaining behind the current one. -/
def nextLen (c : Cursor) : Nat :=
  match c.statement with
  | some st => st.next.length
  | none => 0

/-- Length of the retained original bulk query. -/
def emQLen (c : Cursor) : Nat :=
  match c.emoriginalquery with
  | some q => q.length
  | none => 0

/-- Outcome of the advance logic when the current statement is done:
either `APSWCursor_step` returns, or the loop continues on a freshly bound
and traced statement. -/
inductive StepTail where
  | ret (c : Cursor) (e : Option CErr)
  | cont (c : Cursor)

/-- The advance logic of `APSWCursor_step` once the current statement
reports done (`c1` holds the finished statement with status `DONE`,
`nextq` is `statement->next`): advance to the next statement of the
batch, or re-prime the original bulk statement from the next binding set,
binding and tracing the fresh statement, or finalize via `resetcursor`. -/
def stepAdvance (c1 : Cursor) (nextq : List StmtSpec) : StepTail :=
  match nextq with
  | [] =>
    match c1.emiter with
    | none => let r := resetcursor c1 false none; .ret r.1 r.2
    | some [] => let r := resetcursor c1 false none; .ret r.1 r.2
    | some (x :: rest) =>
      let c2 : Cursor := { c1 with statement := none, emiter := some rest, bindings := none, bindingsoffset := 0 }
      match toBindings x with
      | none => .ret c2 (some .typeError)
      | some b =>
        let c3 : Cursor := { c2 with bindings := some b }
        match c3.emoriginalquery with
        | none => .ret c3 (some .internalError)
        | some q =>
          match prepare q with
          | none => .ret c3 (some .prepareError)
          | some st2 =>
            let c4 : Cursor := { c3 with statement := some st2 }
            let r := bindTrace c4
            match r.2 with
            | some e => .ret r.1 (some e)
            | none => .cont { r.1 with status := .BEGIN }
  | s2 :: restq =>
    let c4 : Cursor := { c1 with statement := some ⟨s2, restq, [], false, [], none⟩ }
    let r := bindTrace c4
    match r.2 with
    | some e => .ret r.1 (some e)
    | none => .cont { r.1 with status := .BEGIN }

/-- `APSWCursor_step`'s loop, one fuel unit per iteration: step the current
statement; on a row transition to `ROW` and return; when the statement is
done, run the advance logic and loop on its continuation. -/
def stepLoopF : Nat → Cursor → Cursor × Option CErr
  | 0, c => (c, some .internalError)
  | fuel + 1, c =>
    match c.statement with
    | none => (c, some .internalError)
    | some st =>
      let s := sqliteStep st
      match s.1 with
      | .row => ({ c with statement := some s.2, status := .ROW }, none)
      | .done =>
        match stepAdvance { c with statement := some s.2, status := CStatus.DONE } s.2.next with
        | .ret c2 e => (c2, e)
        | .cont c2 => stepLoopF fuel c2

/-- Fuel sufficient for `stepLoopF` from the given state: one unit per
remaining statement of the batch plus one per bulk element and statement
of the retained bulk query. -/
def stepFuel (c : Cursor) : Nat :=
  nextLen c + emiterLen c * (emQLen c + 1) + 2

/-- `APSWCursor_step`. -/
def stepLoop (c : Cursor) : Cursor × Option CErr :=
  stepLoopF (stepFuel c) c

/-- Shape check of the bindings argument of `execute`: absent is fine, a
present object must convert via `PySequence_Fast` or be a dict. -/
def bindArgOk : Option PyObj → Option (Option Bindings)
  | none => some none
  | some obj => (toBindings obj).map some

/-- `APSWCursor_execute`: reset (raising on an abandoned batch), take the
bindings, prepare the first statement, bind, run the execution trace, and
drive the step loop until the first row or completion. -/
def execute (c : Cursor) (q : Query) (b : Option PyObj) : Cursor × Option CErr :=
  if c.connectionOpen = false then (c, some .connectionClosed) else
  let r0 := resetcursor c false none
  match r0.2 with
  | some e => (r0.1, some e)
  | none =>
    let c1 := r0.1
    match bindArgOk b with
    | none => (c1, some .typeError)
    | some ob =>
      let c2 : Cursor := { c1 with bindings := ob }
      match prepare q with
      | none => (c2, some .prepareError)
      | some st =>
        let c3 : Cursor := { c2 with statement := some st, bindingsoffset := 0 }
        let r := bindTrace c3
        match r.2 with
        | some e => (r.1, some e)
        | none => stepLoop { r.1 with status := .BEGIN }

/-- `APSWCursor_executemany`: reset, pull the first binding set eagerly
(an empty source returns the cursor at once), prepare the statement,
retain the original query for re-preparation, bind, trace, and drive. -/
def executemany (c : Cursor) (q : Query) (src : List PyObj) : Cursor × Option CErr :=
  if c.connectionOpen = false then (c, some .connectionClosed) else
  let r0 := resetcursor c false none
  match r0.2 with
  | some e => (r0.1, some e)
  | none =>
    let c1 : Cursor := { r0.1 with emiter := some src }
    match src with
    | [] => (c1, none)
    | x :: rest =>
      let c2 : Cursor := { c1 with emiter := some rest }
      match toBindings x with
      | none => (c2, some .typeError)
      | some b =>
        let c3 : Cursor := { c2 with bindings := some b }
        match prepare q with
        | none => (c3, some .prepareError)
        | some st =>
          let c4 : Cursor := { c3 with statement := some st, emoriginalquery := some q, bindingsoffset := 0 }
          let r := bindTrace c4
          match r.2 with
          | some e => (r.1, some e)
          | none => stepLoop { r.1 with status := .BEGIN }

/-- `APSWCursor_close`: a cursor of a closed connection is already closed
and returns success untouched; otherwise reset with the given force. -/
def close (c : Cursor) (force : Bool) (prior : Option CErr) :
    Cursor × Option CErr :=
  if c.connectionOpen = false then (c, prior)
  else resetcursor c force prior

/-- The row made available by the last `SQLITE_ROW` step. -/
def currentRow (c : Cursor) : Row :=
  match c.statement with
  | some st => st.current.getD []
  | none => []

/-- Result of a fetch: a row, end-of-data, or an error. -/
inductive NextR where
  | row (r : Row)
  | stop
  | err (e : CErr)
deriving DecidableEq, Repr

/-- `APSWCursor_next`'s loop, one fuel unit per row considered: step if in
`BEGIN`, stop in `DONE`, otherwise take the current row, return to
`BEGIN`, and hand the row to the row tracer: `none` skips it and fetches
again, a replacement is returned unchanged. -/
def nextLoopF : Nat → Cursor → Cursor × NextR
  | 0, c => (c, .err .internalError)
  | fuel + 1, c =>
    let s : Cursor × Option CErr :=
      if c.status = CStatus.BEGIN then stepLoop c else (c, none)
    match s.2 with
    | some e => (s.1, .err e)
    | none =>
      let c1 := s.1
      if c1.status = CStatus.DONE then (c1, .stop)
      else
        let r := currentRow c1
        let c2 : Cursor := { c1 with status := .BEGIN }
        match c2.rowtrace with
        | none => (c2, .row r)
        | some tr =>
          match tr r with
          | none => nextLoopF fuel c2
          | some v => (c2, .row v)

/-- Rows the current statement can still produce. -/
def rowsLeft (c : Cursor) : Nat :=
  match c.statement with
  | some st => if st.materialized then st.rows.length else genCount st.spec.gen
  | none => 0

/-- Rows the remaining statements of the batch can produce. -/
def nextSpecBound (c : Cursor) : Nat :=
  match c.statement with
  | some st => (st.next.map (fun s => genCount s.gen)).sum
  | none => 0

/-- Rows the remaining bulk elements can produce. -/
def emRowBound (c : Cursor) : Nat :=
  emiterLen c *
    ((match c.emoriginalquery with
      | some q => (q.map (fun s => genCount s.gen)).sum
      | none => 0) + 1)

/-- Fuel sufficient for `nextLoopF` from the given state. -/
def nextFuel (c : Cursor) : Nat :=
  rowsLeft c + nextSpecBound c + emRowBound c + 2

/-- `APSWCursor_next` (fetch the next row). -/
def next (c : Cursor) : Cursor × NextR :=
  if c.connectionOpen = false then (c, .err .connectionClosed)
  else nextLoopF (nextFuel c) c

/-- `APSWCursor_setexectrace`. -/
def setexectrace (c : Cursor) (f : Option ExecTrace) : Cursor :=
  { c with exectrace := f }

/-- `APSWCursor_setrowtrace`. -/
def setrowtrace (c : Cursor) (f : Option RowTrace) : Cursor :=
  { c with rowtrace := f }

/-- The owning connection is closed from outside. -/
def closeConnection (c : Cursor) : Cursor :=
  { c with connectionOpen := false }

/-- Cursor states reachable from a fresh cursor by the public operations. -/
inductive Reachable : Cursor → Prop where
  | init : Reachable initialCursor
  | exec : ∀ {c} (q : Query) (b : Option PyObj), Reachable c → Reachable (execute c q b).1
  | em : ∀ {c} (q : Query) (src : List PyObj), Reachable c → Reachable (executemany c q src).1
  | fetch : ∀ {c}, Reachable c → Reachable (next c).1
  | doClose : ∀ {c} (force : Bool), Reachable c → Reachable (close c force none).1
  | setET : ∀ {c} (f : Option ExecTrace), Reachable c → Reachable (setexectrace c f)
  | setRT : ∀ {c} (f : Option RowTrace), Reachable c → Reachable (setrowtrace c f)
  | connClose : ∀ {c}, Reachable c → Reachable (closeConnection c)

/-- The cursor invariant: a cursor holding no statement is `DONE`, and
while a statement is held with flat-sequence bindings the offset stays
inside `[0, len(bindings)]`. -/
def Inv (c : Cursor) : Prop :=
  (c.statement = none → c.status = CStatus.DONE) ∧
  (∀ l, c.bindings = some (Bindings.seq l) → c.statement ≠ none →
     0 ≤ c.bindingsoffset ∧ c.bindingsoffset ≤ (l.length : Int))

end APSW

namespace APSW

/-- A two-statement batch producing one fixed row each, the model of
`select 1; select 2`. -/
def exQ2 : Query :=
  [⟨"select 1", [], .fixed [[.int 1]]⟩, ⟨"select 2", [], .fixed [[.int 2]]⟩]

/-- A single statement echoing its two named parameters, the model of
`select :a, :b`. -/
def exQEcho : Query := [⟨"select :a, :b", [some ":a", some ":b"], .echoParams⟩]

theorem dobinding_err_ne_bindingsError (arg : Nat) (v : PyValue) :
    (dobinding arg v).2 ≠ some CErr.bindingsError := by
  cases v <;> simp [dobinding] <;> split <;> simp

theorem dobinding_ok_eq (arg : Nat) (v : PyValue)
    (h : (dobinding arg v).2 = none) :
    (dobinding arg v).1 = some (arg, expectedSQL v) := by
  cases v <;> simp_all [dobinding, expectedSQL] <;> split_ifs at h ⊢ <;> simp_all

theorem bindSeq_err_ne_bindingsError (l : List PyValue) :
    ∀ (k arg idx : Nat), (bindSeq l k arg idx).2 ≠ some CErr.bindingsError := by
  intro k
  induction k with
  | zero => intro arg idx; simp [bindSeq]
  | succ n ih =>
      intro arg idx
      simp only [bindSeq]
      cases hd : (dobinding arg (l.getD idx .vnone)).2 with
      | none => simpa using ih (arg + 1) (idx + 1)
      | some e =>
          simp only []
          intro hcon
          apply dobinding_err_ne_bindingsError arg (l.getD idx .vnone)
          rw [hd]
          simpa using hcon

theorem bindSeq_cons (l : List PyValue) (k arg idx : Nat) :
    bindSeq l (k + 1) arg idx =
      (match (dobinding arg (l.getD idx .vnone)).2 with
       | some e => ((dobinding arg (l.getD idx .vnone)).1.toList, some e)
       | none =>
           ((dobinding arg (l.getD idx .vnone)).1.toList ++ (bindSeq l k (arg + 1) (idx + 1)).1,
            (bindSeq l k (arg + 1) (idx + 1)).2)) := rfl

theorem bindSeq_ok (l : List PyValue) :
    ∀ (k arg idx : Nat), (bindSeq l k arg idx).2 = none →
      (bindSeq l k arg idx).1 =
        (List.range k).map (fun i => (arg + i, expectedSQL (l.getD (idx + i) .vnone))) := by
  intro k
  induction k with
  | zero => intro arg idx _; simp [bindSeq]
  | succ n ih =>
      intro arg idx h
      rw [bindSeq_cons] at h ⊢
      cases hd : (dobinding arg (l.getD idx .vnone)).2 with
      | some e => rw [hd] at h; simp at h
      | none =>
          rw [hd] at h
          have h2 : (bindSeq l n (arg + 1) (idx + 1)).2 = none := by simpa using h
          have hb := dobinding_ok_eq arg (l.getD idx .vnone) hd
          simp only [hb, ih (arg + 1) (idx + 1) h2, List.range_succ_eq_map,
            Option.toList_some, List.map_cons, List.map_map, List.cons_append,
            List.nil_append, Nat.add_zero, List.cons.injEq, Prod.mk.injEq, true_and]
          apply List.map_congr_left
          intro i _
          simp only [Function.comp_apply, Prod.mk.injEq]
          constructor
          · omega
          · have hx : idx + 1 + i = idx + (i + 1) := by omega
            rw [hx]

/-- C1: with sequence-mode bindings over a flat sequence of length
`available` at offset `off`, a statement of `n` parameters followed by
another statement fails with `BindingsError` exactly when
`available - off < n`; a final statement fails exactly when
`available - off ≠ n`; on success positions `1..n` are bound from the
slice `bindings[off .. off+n)` and the offset advances to `off + n`. -/
theorem claim_C1_sequence_arity (params : List (Option String)) (l : List PyValue)
    (off : Int) :
    ((dobindingsCore params true (some (.seq l)) off).err = some CErr.bindingsError ↔
       (l.length : Int) - off < params.length) ∧
    ((dobindingsCore params false (some (.seq l)) off).err = some CErr.bindingsError ↔
       (l.length : Int) - off ≠ params.length) ∧
    ((dobindingsCore params true (some (.seq l)) off).err = none →
       (dobindingsCore params true (some (.seq l)) off).newoff = off + params.length ∧
       (dobindingsCore params true (some (.seq l)) off).binds =
         (List.range params.length).map
           (fun i => (1 + i, expectedSQL (l.getD (off.toNat + i) .vnone)))) ∧
    ((dobindingsCore params false (some (.seq l)) off).err = none →
       (dobindingsCore params false (some (.seq l)) off).newoff = off + params.length ∧
       (dobindingsCore params false (some (.seq l)) off).binds =
         (List.range params.length).map
           (fun i => (1 + i, expectedSQL (l.getD (off.toNat + i) .vnone)))) := by
  have hone : ∀ (hn : Bool), (dobindingsCore params hn (some (.seq l)) off) =
      (if hn = true ∧ (l.length : Int) - off < params.length then
        ⟨[], off, some .bindingsError⟩
      else if hn = false ∧ (l.length : Int) - off ≠ params.length then
        ⟨[], off, some .bindingsError⟩
      else
        match (bindSeq l params.length 1 off.toNat).2 with
        | some e => ⟨(bindSeq l params.length 1 off.toNat).1, off, some e⟩
        | none => ⟨(bindSeq l params.length 1 off.toNat).1, off + params.length, none⟩) := by
    intro hn; rfl
  have hnotb : ∀ (e : CErr), (bindSeq l params.length 1 off.toNat).2 = some e →
      e ≠ CErr.bindingsError := by
    intro e hb hcon
    apply bindSeq_err_ne_bindingsError l params.length 1 off.toNat
    rw [hb, hcon]
  refine ⟨?_, ?_, ?_, ?_⟩
  · rw [hone true]
    by_cases hc : (l.length : Int) - off < params.length
    · simp [hc]
    · rw [if_neg (by simp [hc]), if_neg (by simp)]
      cases hb : (bindSeq l params.length 1 off.toNat).2 with
      | none => simp [hc]
      | some e => simp [hnotb e hb, hc]
  · rw [hone false]
    by_cases hc : (l.length : Int) - off ≠ params.length
    · simp [hc]
    · rw [if_neg (by simp), if_neg (by simp [hc])]
      cases hb : (bindSeq l params.length 1 off.toNat).2 with
      | none => simp [hc]
      | some e => simp [hnotb e hb, hc]
  · rw [hone true]
    by_cases hc : (l.length : Int) - off < params.length
    · simp [hc]
    · rw [if_neg (by simp [hc]), if_neg (by simp)]
      cases hb : (bindSeq l params.length 1 off.toNat).2 with
      | none =>
          intro _
          exact ⟨rfl, bindSeq_ok l params.length 1 off.toNat hb⟩
      | some e => simp
  · rw [hone false]
    by_cases hc : (l.length : Int) - off ≠ params.length
    · simp [hc]
    · rw [if_neg (by simp), if_neg (by simp [hc])]
      cases hb : (bindSeq l params.length 1 off.toNat).2 with
      | none =>
          intro _
          exact ⟨rfl, bindSeq_ok l params.length 1 off.toNat hb⟩
      | some e => simp

/-- Witness for C1 at a two-parameter final statement with a two-element
sequence: success, offset advanced by two, both positions bound in order. -/
theorem claim_C1_witness :
    (dobindingsCore [none, none] false (some (.seq [.vint 5, .vint 6])) 0).err = none ∧
    ((dobindingsCore [none, none] false (some (.seq [.vint 5, .vint 6])) 0).newoff =
        0 + ([none, none] : List (Option String)).length ∧
     (dobindingsCore [none, none] false (some (.seq [.vint 5, .vint 6])) 0).binds =
        (List.range ([none, none] : List (Option String)).length).map
          (fun i => (1 + i,
            expectedSQL (([.vint 5, .vint 6] : List PyValue).getD ((0 : Int).toNat + i) .vnone)))) :=
  ⟨by decide,
   (claim_C1_sequence_arity [none, none] [.vint 5, .vint 6] 0).2.2.2 (by decide)⟩

/-- C4: a text or blob value whose encoded length exceeds the engine's
32-bit signed maximum fails with the oversize error and no engine bind
call is issued, so no engine call mutates statement state for it. -/
theorem claim_C4_oversize (arg : Nat) (bytes : List Nat)
    (h : APSW_INT32_MAX < bytes.length) :
    dobinding arg (.vstr bytes) = (none, some CErr.toobig) ∧
    dobinding arg (.vbuffer bytes) = (none, some CErr.toobig) := by
  constructor <;> simp [dobinding, h]

/-- Witness for C4 on a text/blob of length `APSW_INT32_MAX + 1`. -/
theorem claim_C4_witness :
    APSW_INT32_MAX < (List.replicate (APSW_INT32_MAX + 1) 0).length ∧
    dobinding 1 (.vstr (List.replicate (APSW_INT32_MAX + 1) 0)) =
      (none, some CErr.toobig) ∧
    dobinding 1 (.vbuffer (List.replicate (APSW_INT32_MAX + 1) 0)) =
      (none, some CErr.toobig) := by
  have h : APSW_INT32_MAX < (List.replicate (APSW_INT32_MAX + 1) (0 : Nat)).length := by
    rw [List.length_replicate]
    omega
  exact ⟨h, (claim_C4_oversize 1 _ h).1, (claim_C4_oversize 1 _ h).2⟩

end APSW

namespace APSW

/-- A value the binder accepts without error (position-independent). -/
abbrev bindsClean (v : PyValue) : Prop := (dobinding 1 v).2 = none

theorem dobinding_err_irrel (arg : Nat) (v : PyValue) :
    (dobinding arg v).2 = (dobinding 1 v).2 := by
  cases v <;> simp [dobinding] <;> split <;> simp

theorem lookupD_mem (m : List (String × PyValue)) (k : String) (v : PyValue)
    (h : lookupD m k = some v) : v ∈ m.map Prod.snd := by
  unfold lookupD at h
  cases hf : m.find? (fun p => p.1 == k) with
  | none => rw [hf] at h; simp at h
  | some p =>
      rw [hf] at h
      have h2 : p.2 = v := by simpa using h
      exact h2 ▸ List.mem_map_of_mem Prod.snd (List.mem_of_find?_eq_some hf)

theorem bindDict_cons_some (m : List (String × PyValue)) (name : String)
    (rest : List (Option String)) (arg : Nat) :
    bindDict m (some name :: rest) arg =
      (match lookupD m (name.drop 1) with
       | none => bindDict m rest (arg + 1)
       | some obj =>
           match (dobinding arg obj).2 with
           | some e => ((dobinding arg obj).1.toList, some e)
           | none => ((dobinding arg obj).1.toList ++ (bindDict m rest (arg + 1)).1,
                      (bindDict m rest (arg + 1)).2)) := rfl

theorem bindDict_cons_miss (m : List (String × PyValue)) (name : String)
    (rest : List (Option String)) (arg : Nat)
    (h : lookupD m (name.drop 1) = none) :
    bindDict m (some name :: rest) arg = bindDict m rest (arg + 1) := by
  rw [bindDict_cons_some, h]

theorem bindDict_cons_hit (m : List (String × PyValue)) (name : String)
    (rest : List (Option String)) (arg : Nat) (obj : PyValue)
    (h : lookupD m (name.drop 1) = some obj) :
    bindDict m (some name :: rest) arg =
      (match (dobinding arg obj).2 with
       | some e => ((dobinding arg obj).1.toList, some e)
       | none => ((dobinding arg obj).1.toList ++ (bindDict m rest (arg + 1)).1,
                  (bindDict m rest (arg + 1)).2)) := by
  rw [bindDict_cons_some, h]

theorem bindDict_ok (m : List (String × PyValue)) :
    ∀ (ps : List (Option String)) (arg : Nat),
      (∀ p ∈ ps, p ≠ none) →
      (∀ v ∈ m.map Prod.snd, bindsClean v) →
      (bindDict m ps arg).2 = none := by
  intro ps
  induction ps with
  | nil => intro arg _ _; simp [bindDict]
  | cons p rest ih =>
      intro arg hn hv
      cases p with
      | none => exact absurd rfl (hn none (by simp))
      | some name =>
          cases hl : lookupD m (name.drop 1) with
          | none =>
              rw [bindDict_cons_miss m name rest arg hl]
              exact ih (arg + 1) (fun x hx => hn x (by simp [hx])) hv
          | some obj =>
              have ho : (dobinding arg obj).2 = none := by
                rw [dobinding_err_irrel]
                exact hv obj (lookupD_mem m _ obj hl)
              rw [bindDict_cons_hit m name rest arg obj hl, ho]
              simpa using ih (arg + 1) (fun x hx => hn x (by simp [hx])) hv

theorem dobinding_fst_arg (arg : Nat) (v : PyValue) (q : Nat × SQLValue)
    (h : q ∈ (dobinding arg v).1.toList) : q.1 = arg := by
  cases v <;> simp only [dobinding] at h <;> (try split at h) <;> simp_all

theorem bindDict_pos_ge (m : List (String × PyValue)) :
    ∀ (ps : List (Option String)) (arg : Nat) (q : Nat × SQLValue),
      q ∈ (bindDict m ps arg).1 → arg ≤ q.1 := by
  intro ps
  induction ps with
  | nil => intro arg q hq; simp [bindDict] at hq
  | cons p rest ih =>
      intro arg q hq
      cases p with
      | none => simp [bindDict] at hq
      | some name =>
          cases hl : lookupD m (name.drop 1) with
          | none =>
              rw [bindDict_cons_miss m name rest arg hl] at hq
              have h1 := ih (arg + 1) q hq
              omega
          | some obj =>
              rw [bindDict_cons_hit m name rest arg obj hl] at hq
              cases hd : (dobinding arg obj).2 with
              | some e =>
                  rw [hd] at hq
                  have h1 := dobinding_fst_arg arg obj q (by simpa using hq)
                  omega
              | none =>
                  rw [hd] at hq
                  simp only [List.mem_append] at hq
                  cases hq with
                  | inl h1 =>
                      have h2 := dobinding_fst_arg arg obj q h1
                      omega
                  | inr h2 =>
                      have h3 := ih (arg + 1) q h2
                      omega

theorem bindDict_missing (m : List (String × PyValue)) :
    ∀ (ps : List (Option String)) (arg pos : Nat) (name : String),
      arg ≤ pos →
      ps.get? (pos - arg) = some (some name) →
      lookupD m (name.drop 1) = none →
      ∀ sv, (pos, sv) ∉ (bindDict m ps arg).1 := by
  intro ps
  induction ps with
  | nil => intro arg pos name _ hget _ sv; simp at hget
  | cons p rest ih =>
      intro arg pos name hle hget hmiss sv hmem
      by_cases heq : pos = arg
      · subst heq
        have h0 : pos - pos = 0 := by omega
        rw [h0] at hget
        simp only [List.get?_cons_zero] at hget
        have hp : p = some name := by simpa using hget
        subst hp
        rw [bindDict_cons_miss m name rest pos hmiss] at hmem
        have h2 := bindDict_pos_ge m rest (pos + 1) (pos, sv) hmem
        simp at h2
      · have hlt : arg < pos := by omega
        cases p with
        | none => simp [bindDict] at hmem
        | some nm =>
            have hidx : pos - arg = (pos - (arg + 1)) + 1 := by omega
            rw [hidx] at hget
            simp only [List.get?_cons_succ] at hget
            cases hl : lookupD m (nm.drop 1) with
            | none =>
                rw [bindDict_cons_miss m nm rest arg hl] at hmem
                exact ih (arg + 1) pos name (by omega) hget hmiss sv hmem
            | some obj =>
                rw [bindDict_cons_hit m nm rest arg obj hl] at hmem
                cases hd : (dobinding arg obj).2 with
                | some e =>
                    rw [hd] at hmem
                    have h2 := dobinding_fst_arg arg obj (pos, sv) (by simpa using hmem)
                    simp at h2
                    omega
                | none =>
                    rw [hd] at hmem
                    simp only [List.mem_append] at hmem
                    cases hmem with
                    | inl h1 =>
                        have h2 := dobinding_fst_arg arg obj (pos, sv) h1
                        simp at h2
                        omega
                    | inr h2 =>
                        exact ih (arg + 1) pos name (by omega) hget hmiss sv h2

theorem valOf_null_of_not_mem (binds : List (Nat × SQLValue)) (pos : Nat)
    (h : ∀ sv, (pos, sv) ∉ binds) : valOf binds pos = SQLValue.null := by
  unfold valOf
  have hf : binds.filter (fun p => p.1 == pos) = [] := by
    rw [List.filter_eq_nil_iff]
    intro a ha hc
    have h1 : a.1 = pos := by simpa using hc
    apply h a.2
    have h2 : (pos, a.2) = a := by
      cases a with
      | mk x y => simp only at h1; rw [h1]
    rw [h2]
    exact ha
  rw [hf]
  rfl

/-- C3: in mapping mode every declared parameter whose stripped name is
missing from the mapping is skipped (its engine valuation stays SQL null)
and no error is raised for the missing key; in particular the model of
`execute("select :a, :b", [("a", 1)] as dict)` fetches the single row
`(1, null)`. -/
theorem claim_C3_dict_missing_null (params : List (Option String)) (hasNext : Bool)
    (m : List (String × PyValue)) (off : Int)
    (hnames : ∀ p ∈ params, p ≠ none)
    (hclean : ∀ v ∈ m.map Prod.snd, bindsClean v) :
    ((dobindingsCore params hasNext (some (.dict m)) off).err = none ∧
     (dobindingsCore params hasNext (some (.dict m)) off).newoff = off ∧
     (∀ (pos : Nat) (name : String), 1 ≤ pos →
        params.get? (pos - 1) = some (some name) →
        lookupD m (name.drop 1) = none →
        valOf (dobindingsCore params hasNext (some (.dict m)) off).binds pos =
          SQLValue.null)) ∧
    (next (execute initialCursor exQEcho (some (.dict [("a", .vint 1)]))).1).2 =
      NextR.row [SQLValue.int 1, SQLValue.null] := by
  have hcore : dobindingsCore params hasNext (some (.dict m)) off =
      ⟨(bindDict m params 1).1, off, (bindDict m params 1).2⟩ := rfl
  refine ⟨⟨?_, ?_, ?_⟩, ?_⟩
  · rw [hcore]
    exact bindDict_ok m params 1 hnames hclean
  · rw [hcore]
  · intro pos name hpos hget hmiss
    rw [hcore]
    apply valOf_null_of_not_mem
    intro sv
    exact bindDict_missing m params 1 pos name hpos hget hmiss sv
  · decide

/-- Witness for C3: the concrete statement `select :a, :b` with the
mapping containing only `a`; the missing key `b` leaves position 2 null. -/
theorem claim_C3_witness :
    lookupD [("a", .vint 1)] ((":b" : String).drop 1) = none ∧
    valOf (dobindingsCore [some ":a", some ":b"] false
        (some (.dict [("a", .vint 1)])) 0).binds 2 = SQLValue.null := by
  refine ⟨by decide, ?_⟩
  exact (claim_C3_dict_missing_null [some ":a", some ":b"] false [("a", .vint 1)] 0
    (by decide) (by decide)).1.2.2 2 ":b" (by decide) (by decide) (by decide)

/-- C2: a non-forced reset raises `IncompleteExecutionError` exactly when
the state is not `DONE` and batch text or a bulk source remains; starting
a new `execute`/`executemany` or a non-forced `close` surfaces the same
error then; a forced close never raises it and leaves pending exactly the
error active before the close began. -/
theorem claim_C2_abandonment (c : Cursor) (prior : Option CErr) (q : Query)
    (b : Option PyObj) (src : List PyObj) :
    ((resetcursor c false none).2 = some CErr.incompleteExecutionError ↔
       (c.status ≠ CStatus.DONE ∧ (hasNextQuery c = true ∨ emHasNext c = true))) ∧
    (close c true prior).2 = prior ∧
    (c.connectionOpen = true → c.status ≠ CStatus.DONE →
       (hasNextQuery c = true ∨ emHasNext c = true) →
       (execute c q b).2 = some CErr.incompleteExecutionError ∧
       (executemany c q src).2 = some CErr.incompleteExecutionError ∧
       (close c false none).2 = some CErr.incompleteExecutionError) := by
  have hres : (resetcursor c false none).2 =
      (if c.status ≠ CStatus.DONE ∧ (hasNextQuery c = true ∨ emHasNext c = true) then
         some CErr.incompleteExecutionError else none) := rfl
  refine ⟨?_, ?_, ?_⟩
  · rw [hres]
    split
    · rename_i hcond; simp [hcond]
    · rename_i hcond; simp [hcond]
  · by_cases hco : c.connectionOpen = false
    · simp [close, hco]
    · simp [close, hco, resetcursor]
  · intro h1 h2 h3
    have hr : (resetcursor c false none).2 = some CErr.incompleteExecutionError := by
      rw [hres, if_pos ⟨h2, h3⟩]
    rcases hE : resetcursor c false none with ⟨c1, e1⟩
    rw [hE] at hr
    simp only at hr
    subst hr
    refine ⟨?_, ?_, ?_⟩
    · simp [execute, h1, hE]
    · simp [executemany, h1, hE]
    · simp [close, h1, hE]

/-- Witness for C2 on a cursor abandoned mid-way through
`select 1; select 2`. -/
theorem claim_C2_witness :
    (resetcursor (execute initialCursor exQ2 none).1 false none).2 =
      some CErr.incompleteExecutionError ∧
    (close (execute initialCursor exQ2 none).1 true (some CErr.typeError)).2 =
      some CErr.typeError ∧
    (execute (execute initialCursor exQ2 none).1 exQ2 none).2 =
      some CErr.incompleteExecutionError ∧
    (executemany (execute initialCursor exQ2 none).1 exQ2 []).2 =
      some CErr.incompleteExecutionError ∧
    (close (execute initialCursor exQ2 none).1 false none).2 =
      some CErr.incompleteExecutionError := by
  have h := claim_C2_abandonment (execute initialCursor exQ2 none).1
    (some CErr.typeError) exQ2 none []
  have h3 := h.2.2 (by decide) (by decide) (by decide)
  exact ⟨h.1.mpr ⟨by decide, by decide⟩, h.2.1, h3.1, h3.2.1, h3.2.2⟩

/-- C10: closing a cursor whose owning connection is already closed is a
successful no-op for both force values, whatever work was pending. -/
theorem claim_C10_closed_connection (c : Cursor) (force : Bool)
    (h : c.connectionOpen = false) :
    close c force none = (c, none) := by
  simp [close, h]

/-- Witness for C10 on a cursor abandoned mid-batch whose connection was
then closed. -/
theorem claim_C10_witness :
    (closeConnection (execute initialCursor exQ2 none).1).connectionOpen = false ∧
    close (closeConnection (execute initialCursor exQ2 none).1) true none =
      (closeConnection (execute initialCursor exQ2 none).1, none) ∧
    close (closeConnection (execute initialCursor exQ2 none).1) false none =
      (closeConnection (execute initialCursor exQ2 none).1, none) :=
  ⟨rfl, claim_C10_closed_connection _ true rfl, claim_C10_closed_connection _ false rfl⟩

end APSW

namespace APSW

theorem bindTrace_fst (c : Cursor) : (bindTrace c).1 = (dobindingsApply c).1 := by
  simp only [bindTrace]
  cases h : (dobindingsApply c).2 with
  | some e => rfl
  | none =>
      cases h2 : doexectrace (dobindingsApply c).1 c.bindingsoffset <;> rfl

theorem dobindingsApply_fields (c : Cursor) :
    (dobindingsApply c).1.bindings = c.bindings ∧
    (dobindingsApply c).1.status = c.status ∧
    (dobindingsApply c).1.emiter = c.emiter ∧
    (dobindingsApply c).1.emoriginalquery = c.emoriginalquery ∧
    (dobindingsApply c).1.exectrace = c.exectrace ∧
    (dobindingsApply c).1.rowtrace = c.rowtrace ∧
    (dobindingsApply c).1.connectionOpen = c.connectionOpen := by
  unfold dobindingsApply
  cases h : c.statement <;> simp

theorem dobindingsApply_statement (c : Cursor) (st : Statement)
    (h : c.statement = some st) :
    (dobindingsApply c).1.statement =
      some (applyBinds st
        (dobindingsCore st.spec.params (!st.next.isEmpty) c.bindings c.bindingsoffset).binds) ∧
    (dobindingsApply c).1.bindingsoffset =
      (dobindingsCore st.spec.params (!st.next.isEmpty) c.bindings c.bindingsoffset).newoff ∧
    (dobindingsApply c).2 =
      (dobindingsCore st.spec.params (!st.next.isEmpty) c.bindings c.bindingsoffset).err := by
  unfold dobindingsApply
  rw [h]
  exact ⟨rfl, rfl, rfl⟩

theorem resetcursor_fields (c : Cursor) (force : Bool) (p : Option CErr) :
    (resetcursor c force p).1.statement = none ∧
    (resetcursor c force p).1.status = CStatus.DONE ∧
    (resetcursor c force p).1.bindings = none ∧
    (resetcursor c force p).1.emiter = none ∧
    (resetcursor c force p).1.emoriginalquery = none ∧
    (resetcursor c force p).1.rowtrace = c.rowtrace ∧
    (resetcursor c force p).1.exectrace = c.exectrace ∧
    (resetcursor c force p).1.connectionOpen = c.connectionOpen := by
  unfold resetcursor
  exact ⟨rfl, rfl, rfl, rfl, rfl, rfl, rfl, rfl⟩

theorem bindTrace_traces (c : Cursor) :
    (bindTrace c).1.rowtrace = c.rowtrace ∧
    (bindTrace c).1.exectrace = c.exectrace ∧
    (bindTrace c).1.connectionOpen = c.connectionOpen := by
  rw [bindTrace_fst]
  have h := dobindingsApply_fields c
  exact ⟨h.2.2.2.2.2.1, h.2.2.2.2.1, h.2.2.2.2.2.2⟩

/-- Two cursors with the same tracer and connection fields. -/
def sameTraces (c2 c1 : Cursor) : Prop :=
  c2.rowtrace = c1.rowtrace ∧ c2.exectrace = c1.exectrace ∧
  c2.connectionOpen = c1.connectionOpen

theorem sameTraces_refl (c : Cursor) : sameTraces c c := ⟨rfl, rfl, rfl⟩

theorem sameTraces_trans {a b c : Cursor} (h1 : sameTraces a b)
    (h2 : sameTraces b c) : sameTraces a c :=
  ⟨h1.1.trans h2.1, h1.2.1.trans h2.2.1, h1.2.2.trans h2.2.2⟩

/-- The cursor carried by a `StepTail`. -/
def StepTail.cursor : StepTail → Cursor
  | .ret c _ => c
  | .cont c => c

theorem resetcursor_sameTraces (c : Cursor) (f : Bool) (p : Option CErr) :
    sameTraces (resetcursor c f p).1 c :=
  ⟨(resetcursor_fields c f p).2.2.2.2.2.1, (resetcursor_fields c f p).2.2.2.2.2.2.1,
   (resetcursor_fields c f p).2.2.2.2.2.2.2⟩

theorem bindTrace_sameTraces (c : Cursor) : sameTraces (bindTrace c).1 c :=
  ⟨(bindTrace_traces c).1, (bindTrace_traces c).2.1, (bindTrace_traces c).2.2⟩

theorem stepAdvance_traces (c1 : Cursor) (nextq : List StmtSpec) :
    sameTraces (stepAdvance c1 nextq).cursor c1 := by
  unfold stepAdvance
  split
  · split
    · exact resetcursor_sameTraces _ _ _
    · exact resetcursor_sameTraces _ _ _
    · try dsimp only
      split
      · exact sameTraces_refl _
      · try dsimp only
        split
        · exact sameTraces_refl _
        · split
          · exact sameTraces_refl _
          · try dsimp only
            split
            · exact sameTraces_trans (bindTrace_sameTraces _) (sameTraces_refl _)
            · exact sameTraces_trans
                (sameTraces_trans (sameTraces_refl _) (bindTrace_sameTraces _))
                (sameTraces_refl _)
  · try dsimp only
    split
    · exact sameTraces_trans (bindTrace_sameTraces _) (sameTraces_refl _)
    · exact sameTraces_trans
        (sameTraces_trans (sameTraces_refl _) (bindTrace_sameTraces _))
        (sameTraces_refl _)

theorem stepLoopF_traces : ∀ (fuel : Nat) (c : Cursor),
    sameTraces (stepLoopF fuel c).1 c := by
  intro fuel
  induction fuel with
  | zero => intro c; exact sameTraces_refl c
  | succ n ih =>
      intro c
      rw [stepLoopF]
      split
      · exact sameTraces_refl c
      · rename_i st hst
        try dsimp only
        split
        · exact sameTraces_refl _
        · split
          · rename_i c2 e hsa
            have h1 := stepAdvance_traces
              { c with statement := some (sqliteStep st).2, status := CStatus.DONE }
              (sqliteStep st).2.next
            rw [hsa] at h1
            exact sameTraces_trans h1 (sameTraces_refl _)
          · rename_i c2 hsa
            have h1 := stepAdvance_traces
              { c with statement := some (sqliteStep st).2, status := CStatus.DONE }
              (sqliteStep st).2.next
            rw [hsa] at h1
            exact sameTraces_trans (ih c2) (sameTraces_trans h1 (sameTraces_refl _))

theorem stepLoop_traces (c : Cursor) : sameTraces (stepLoop c).1 c :=
  stepLoopF_traces (stepFuel c) c

theorem next_unfold (c : Cursor) (hconn : c.connectionOpen = true) :
    next c = nextLoopF (nextFuel c) c := by
  simp [next, hconn]

theorem next_done (c : Cursor) (hconn : c.connectionOpen = true)
    (hdone : c.status = CStatus.DONE) : next c = (c, NextR.stop) := by
  rw [next_unfold c hconn]
  have h2 : nextFuel c = (rowsLeft c + nextSpecBound c + emRowBound c + 1) + 1 := rfl
  rw [h2, nextLoopF]
  simp [hdone]

theorem nextLoopF_row (n : Nat) (c : Cursor) (hrow : c.status = CStatus.ROW) :
    nextLoopF (n + 1) c =
      (match c.rowtrace with
       | none => ({ c with status := CStatus.BEGIN }, NextR.row (currentRow c))
       | some tr =>
           match tr (currentRow c) with
           | none => nextLoopF n { c with status := CStatus.BEGIN }
           | some v => ({ c with status := CStatus.BEGIN }, NextR.row v)) := by
  rw [nextLoopF]
  have h1 : (c.status = CStatus.BEGIN) = False := by simp [hrow]
  have h2 : (c.status = CStatus.DONE) = False := by simp [hrow]
  simp only [h1, if_false, h2]

end APSW

namespace APSW

/-- C5: with an execution tracer installed that returns a falsy value for
the statement about to be executed, `execute` raises the trace-abort error
and the statement is never stepped: the cursor stays `DONE`, the held
statement is unmaterialized with no current row, and fetching reports
end-of-data, so no row is ever produced for that statement. -/
theorem claim_C5_exectrace_abort (c : Cursor) (f : ExecTrace) (s : StmtSpec)
    (qrest : List StmtSpec) (b : Option PyObj) (ob : Option Bindings)
    (hconn : c.connectionOpen = true) (hst : c.statement = none)
    (hss : c.status = CStatus.DONE) (hem : c.emiter = none)
    (het : c.exectrace = some f)
    (hb : bindArgOk b = some ob)
    (hbind : (dobindingsCore s.params (!qrest.isEmpty) ob 0).err = none)
    (htr : f s.text (execTraceView ob 0
        (dobindingsCore s.params (!qrest.isEmpty) ob 0).newoff) = false) :
    (execute c (s :: qrest) b).2 = some CErr.execTraceAbort ∧
    (execute c (s :: qrest) b).1.status = CStatus.DONE ∧
    (∃ st, (execute c (s :: qrest) b).1.statement = some st ∧
       st.materialized = false ∧ st.current = none ∧ st.spec = s) ∧
    (next (execute c (s :: qrest) b).1).2 = NextR.stop := by
  obtain ⟨co, st0, ss0, b0, off0, em0, emq0, et0, rt0⟩ := c
  simp only at hconn hst hss hem het
  subst hconn hst hss hem het
  have hrun : execute ⟨true, none, CStatus.DONE, b0, off0, none, emq0, some f, rt0⟩
      (s :: qrest) b =
      (⟨true, some (applyBinds ⟨s, qrest, [], false, [], none⟩
           (dobindingsCore s.params (!qrest.isEmpty) ob 0).binds),
         CStatus.DONE, ob,
         (dobindingsCore s.params (!qrest.isEmpty) ob 0).newoff,
         none, none, some f, rt0⟩,
       some CErr.execTraceAbort) := by
    simp only [execute, resetcursor, hasNextQuery, emHasNext, hb, prepare,
      bindTrace, dobindingsApply, applyBinds, doexectrace]
    simp [hbind, htr]
  rw [hrun]
  refine ⟨rfl, rfl, ⟨_, rfl, rfl, rfl, rfl⟩, ?_⟩
  rw [next_done _ rfl rfl]

/-- Witness for C5: a vetoing tracer on a one-row statement; the abort is
raised, the statement is unstepped, and no row is produced. -/
theorem claim_C5_witness :
    (execute ⟨true, none, CStatus.DONE, none, 0, none, none,
        some (fun _ _ => false), none⟩ exQ2 none).2 = some CErr.execTraceAbort ∧
    (next (execute ⟨true, none, CStatus.DONE, none, 0, none, none,
        some (fun _ _ => false), none⟩ exQ2 none).1).2 = NextR.stop := by
  have h := claim_C5_exectrace_abort
    ⟨true, none, CStatus.DONE, none, 0, none, none, some (fun _ _ => false), none⟩
    (fun _ _ => false) ⟨"select 1", [], .fixed [[.int 1]]⟩
    [⟨"select 2", [], .fixed [[.int 2]]⟩] none none
    rfl rfl rfl rfl rfl rfl (by decide) rfl
  exact ⟨h.1, h.2.2.2⟩

/-- C6: while a row tracer is installed, a fetch of an available row
returns the tracer's replacement value unchanged; if the tracer returns
the none sentinel the row is skipped and the fetch proceeds to the next
row, returning its (traced) value instead. -/
theorem claim_C6_rowtrace (c : Cursor) (tr : RowTrace)
    (hconn : c.connectionOpen = true) (hrow : c.status = CStatus.ROW)
    (htr : c.rowtrace = some tr) :
    (∀ v, tr (currentRow c) = some v → (next c).2 = NextR.row v) ∧
    (tr (currentRow c) = none →
       ∀ v2, (stepLoop { c with status := CStatus.BEGIN }).2 = none →
         (stepLoop { c with status := CStatus.BEGIN }).1.status = CStatus.ROW →
         tr (currentRow (stepLoop { c with status := CStatus.BEGIN }).1) = some v2 →
         (next c).2 = NextR.row v2) := by
  have hn : next c = nextLoopF (rowsLeft c + nextSpecBound c + emRowBound c + 1 + 1) c := by
    rw [next_unfold c hconn]; rfl
  constructor
  · intro v hv
    rw [hn, nextLoopF_row _ c hrow]
    rw [htr]
    dsimp only
    rw [hv]
  · intro hskip v2 h1 h2 h3
    rw [hn, nextLoopF_row _ c hrow]
    rw [htr] at h1 h2 h3 ⊢
    dsimp only
    rw [hskip]
    dsimp only
    rw [nextLoopF]
    dsimp only
    simp only [reduceIte]
    rw [h1]
    try dsimp only
    try simp only [reduceIte]
    rw [h2]
    try dsimp only
    try simp only [reduceIte]
    have htr2 : (stepLoop ⟨c.connectionOpen, c.statement, CStatus.BEGIN, c.bindings,
        c.bindingsoffset, c.emiter, c.emoriginalquery, c.exectrace, some tr⟩).1.rowtrace =
        some tr := by
      rw [(stepLoop_traces _).1]
    rw [htr2]
    try dsimp only
    rw [h3]
    try dsimp only
    try rfl

/-- Witness for C6: a tracer that skips the row `(1)` and prefixes other
rows with `99`: the direct fetch substitutes, and from a skipped row the
fetch returns the traced next row. -/
theorem claim_C6_witness :
    (next ⟨true, some ⟨⟨"q", [], .fixed []⟩, [], [], true, [[.int 2]], some [.int 2]⟩,
        CStatus.ROW, none, 0, none, none, none,
        some (fun r => if r = [SQLValue.int 1] then none
                       else some (SQLValue.int 99 :: r))⟩).2 =
      NextR.row [SQLValue.int 99, SQLValue.int 2] ∧
    (next ⟨true, some ⟨⟨"q", [], .fixed []⟩, [], [], true, [[.int 2]], some [.int 1]⟩,
        CStatus.ROW, none, 0, none, none, none,
        some (fun r => if r = [SQLValue.int 1] then none
                       else some (SQLValue.int 99 :: r))⟩).2 =
      NextR.row [SQLValue.int 99, SQLValue.int 2] := by
  constructor
  · exact (claim_C6_rowtrace _ _ rfl rfl rfl).1 [SQLValue.int 99, SQLValue.int 2]
      (by decide)
  · exact (claim_C6_rowtrace _ _ rfl rfl rfl).2 (by decide)
      [SQLValue.int 99, SQLValue.int 2] (by decide) (by decide) (by decide)

/-- Counterexample to C7 as stated: `executemany(text, [])` on a cursor
abandoned mid-way through a prior multi-statement batch is not a
successful no-op; the implicit reset raises `IncompleteExecutionError`. -/
theorem claim_C7_counterexample :
    (executemany (execute initialCursor exQ2 none).1
        [⟨"insert", [], .fixed []⟩] []).2 =
      some CErr.incompleteExecutionError := by
  decide

/-- C7 amended: provided the connection is open and the implicit reset
succeeds (no incomplete prior work), `executemany(text, [])` is a no-op
that succeeds: no statement is prepared (even an unparseable text raises
nothing), no binding occurs, an installed execution tracer never fires
(a vetoing tracer aborts nothing), and the cursor is immediately idle
(`DONE`, no statement, exhausted source) with the cursor itself returned. -/
theorem claim_C7_amended (c : Cursor) (q : Query)
    (hconn : c.connectionOpen = true)
    (hreset : (resetcursor c false none).2 = none) :
    (executemany c q []).2 = none ∧
    (executemany c q []).1.statement = none ∧
    (executemany c q []).1.status = CStatus.DONE ∧
    (executemany c q []).1.bindings = none ∧
    (executemany c q []).1.emiter = some [] ∧
    (∀ f : ExecTrace, (executemany (setexectrace c (some f)) q []).2 = none) := by
  rcases hE : resetcursor c false none with ⟨c1, e1⟩
  rw [hE] at hreset
  simp only at hreset
  subst hreset
  have hf := resetcursor_fields c false none
  rw [hE] at hf
  simp only at hf
  refine ⟨?_, ?_, ?_, ?_, ?_, ?_⟩
  · simp [executemany, hconn, hE]
  · simp [executemany, hconn, hE, hf.1]
  · simp [executemany, hconn, hE, hf.2.1]
  · simp [executemany, hconn, hE, hf.2.2.1]
  · simp [executemany, hconn, hE]
  · intro f
    have hE2 : (resetcursor (setexectrace c (some f)) false none).2 =
        (resetcursor c false none).2 := rfl
    have hE3 : (resetcursor (setexectrace c (some f)) false none).2 = none := by
      rw [hE2, hE]
    rcases hE4 : resetcursor (setexectrace c (some f)) false none with ⟨c2, e2⟩
    rw [hE4] at hE3
    simp only at hE3
    subst hE3
    simp only [setexectrace] at hE4
    rw [hconn] at hE4
    simp [executemany, setexectrace, hconn, hE4]

/-- Witness for C7 on a fresh cursor. -/
theorem claim_C7_witness :
    (resetcursor initialCursor false none).2 = none ∧
    (executemany initialCursor exQ2 []).2 = none ∧
    (executemany initialCursor exQ2 []).1.statement = none ∧
    (executemany initialCursor exQ2 []).1.status = CStatus.DONE ∧
    (executemany initialCursor exQ2 []).1.emiter = some [] := by
  have h := claim_C7_amended initialCursor exQ2 (by decide) (by decide)
  exact ⟨by decide, h.1, h.2.1, h.2.2.1, h.2.2.2.2.1⟩

end APSW

namespace APSW

/-- C9: a statement declaring zero parameters accepts no bindings, an
empty sequence and an empty mapping alike: the resolver is an identical
no-op for all three, and on an idle cursor with no tracer the three
`execute` forms all succeed with the same statement and status, binding
nothing. -/
theorem claim_C9_zero_params (c : Cursor) (t : String) (g : RowGen)
    (hconn : c.connectionOpen = true) (hst : c.statement = none)
    (hss : c.status = CStatus.DONE) (hem : c.emiter = none)
    (het : c.exectrace = none) :
    (∀ (hn : Bool) (off : Int),
       dobindingsCore [] hn none off = ⟨[], off, none⟩ ∧
       dobindingsCore [] hn (some (.dict [])) off = ⟨[], off, none⟩ ∧
       (off = 0 → dobindingsCore [] hn (some (.seq [])) off = ⟨[], off, none⟩)) ∧
    ((execute c [⟨t, [], g⟩] none).2 = none ∧
     (execute c [⟨t, [], g⟩] (some (.seq []))).2 = none ∧
     (execute c [⟨t, [], g⟩] (some (.dict []))).2 = none ∧
     (execute c [⟨t, [], g⟩] (some (.seq []))).1.statement =
       (execute c [⟨t, [], g⟩] none).1.statement ∧
     (execute c [⟨t, [], g⟩] (some (.dict []))).1.statement =
       (execute c [⟨t, [], g⟩] none).1.statement ∧
     (execute c [⟨t, [], g⟩] (some (.seq []))).1.status =
       (execute c [⟨t, [], g⟩] none).1.status ∧
     (execute c [⟨t, [], g⟩] (some (.dict []))).1.status =
       (execute c [⟨t, [], g⟩] none).1.status ∧
     (∀ st, (execute c [⟨t, [], g⟩] none).1.statement = some st → st.bound = [])) := by
  obtain ⟨co, st0, ss0, b0, off0, em0, emq0, et0, rt0⟩ := c
  simp only at hconn hst hss hem het
  subst hconn hst hss hem het
  have hres : ∀ (hn : Bool) (off : Int),
      dobindingsCore [] hn none off = ⟨[], off, none⟩ ∧
      dobindingsCore [] hn (some (.dict [])) off = ⟨[], off, none⟩ ∧
      (off = 0 → dobindingsCore [] hn (some (.seq [])) off = ⟨[], off, none⟩) := by
    intro hn off
    refine ⟨rfl, rfl, ?_⟩
    intro h0
    subst h0
    cases hn <;> decide
  have hx : ∀ (bv : Option PyObj) (ob : Option Bindings), bindArgOk bv = some ob →
      dobindingsCore [] false ob 0 = ⟨[], 0, none⟩ →
      execute ⟨true, none, CStatus.DONE, b0, off0, none, emq0, none, rt0⟩ [⟨t, [], g⟩] bv =
        stepLoopF 2 ⟨true, some ⟨⟨t, [], g⟩, [], [], false, [], none⟩,
          CStatus.BEGIN, ob, 0, none, none, none, rt0⟩ := by
    intro bv ob hbv hcore
    simp only [execute, resetcursor, hasNextQuery, emHasNext, hbv, prepare, bindTrace,
      dobindingsApply, applyBinds, doexectrace, stepLoop]
    simp [hcore, stepFuel, nextLen, emiterLen, emQLen]
  have key : ∀ (ob : Option Bindings),
      (stepLoopF 2 ⟨true, some ⟨⟨t, [], g⟩, [], [], false, [], none⟩,
         CStatus.BEGIN, ob, 0, none, none, none, rt0⟩).2 = none ∧
      (stepLoopF 2 ⟨true, some ⟨⟨t, [], g⟩, [], [], false, [], none⟩,
         CStatus.BEGIN, ob, 0, none, none, none, rt0⟩).1.statement =
        (stepLoopF 2 ⟨true, some ⟨⟨t, [], g⟩, [], [], false, [], none⟩,
           CStatus.BEGIN, none, 0, none, none, none, rt0⟩).1.statement ∧
      (stepLoopF 2 ⟨true, some ⟨⟨t, [], g⟩, [], [], false, [], none⟩,
         CStatus.BEGIN, ob, 0, none, none, none, rt0⟩).1.status =
        (stepLoopF 2 ⟨true, some ⟨⟨t, [], g⟩, [], [], false, [], none⟩,
           CStatus.BEGIN, none, 0, none, none, none, rt0⟩).1.status ∧
      (∀ st, (stepLoopF 2 ⟨true, some ⟨⟨t, [], g⟩, [], [], false, [], none⟩,
         CStatus.BEGIN, none, 0, none, none, none, rt0⟩).1.statement = some st →
         st.bound = []) := by
    intro ob
    rcases g with rows | _
    · rcases rows with _ | ⟨r, rs⟩ <;>
        simp [stepLoopF, sqliteStep, materializeStmt, genRows, stepAdvance,
          resetcursor, valOf]
    · simp [stepLoopF, sqliteStep, materializeStmt, genRows, stepAdvance,
        resetcursor, valOf]
  have e0 := hx none none rfl (by decide)
  have e1 := hx (some (.seq [])) (some (.seq [])) rfl (by decide)
  have e2 := hx (some (.dict [])) (some (.dict [])) rfl (by decide)
  rw [e0, e1, e2]
  exact ⟨hres, (key none).1, (key (some (.seq []))).1, (key (some (.dict []))).1,
    (key (some (.seq []))).2.1, (key (some (.dict []))).2.1,
    (key (some (.seq []))).2.2.1, (key (some (.dict []))).2.2.1,
    (key none).2.2.2⟩

end APSW

namespace APSW

/-- Witness for C9 on a fresh cursor and the zero-parameter statement
`select 1`. -/
theorem claim_C9_witness :
    (execute initialCursor [⟨"select 1", [], .fixed [[.int 1]]⟩] none).2 = none ∧
    (execute initialCursor [⟨"select 1", [], .fixed [[.int 1]]⟩] (some (.seq []))).2 = none ∧
    (execute initialCursor [⟨"select 1", [], .fixed [[.int 1]]⟩] (some (.dict []))).2 = none ∧
    (execute initialCursor [⟨"select 1", [], .fixed [[.int 1]]⟩] (some (.seq []))).1.status =
      (execute initialCursor [⟨"select 1", [], .fixed [[.int 1]]⟩] none).1.status := by
  have h := claim_C9_zero_params initialCursor "select 1" (.fixed [[.int 1]])
    rfl rfl rfl rfl rfl
  exact ⟨h.2.1, h.2.2.1, h.2.2.2.1, h.2.2.2.2.2.2.1⟩

end APSW

namespace APSW

theorem dobindingsCore_newoff_seq (params : List (Option String)) (hn : Bool)
    (l : List PyValue) (off : Int) (h0 : 0 ≤ off) (h1 : off ≤ (l.length : Int)) :
    0 ≤ (dobindingsCore params hn (some (.seq l)) off).newoff ∧
    (dobindingsCore params hn (some (.seq l)) off).newoff ≤ (l.length : Int) := by
  have hone : (dobindingsCore params hn (some (.seq l)) off) =
      (if hn = true ∧ (l.length : Int) - off < params.length then
        ⟨[], off, some .bindingsError⟩
      else if hn = false ∧ (l.length : Int) - off ≠ params.length then
        ⟨[], off, some .bindingsError⟩
      else
        match (bindSeq l params.length 1 off.toNat).2 with
        | some e => ⟨(bindSeq l params.length 1 off.toNat).1, off, some e⟩
        | none => ⟨(bindSeq l params.length 1 off.toNat).1, off + params.length, none⟩) := rfl
  rw [hone]
  by_cases hc1 : hn = true ∧ (l.length : Int) - off < params.length
  · rw [if_pos hc1]; exact ⟨h0, h1⟩
  · rw [if_neg hc1]
    by_cases hc2 : hn = false ∧ (l.length : Int) - off ≠ params.length
    · rw [if_pos hc2]; exact ⟨h0, h1⟩
    · rw [if_neg hc2]
      cases hb : (bindSeq l params.length 1 off.toNat).2 with
      | some e => exact ⟨h0, h1⟩
      | none =>
          dsimp only
          refine ⟨by omega, ?_⟩
          cases hn
          · have h3 : (l.length : Int) - off = params.length := by
              by_contra hne
              exact hc2 ⟨rfl, hne⟩
            omega
          · have h3 : ¬((l.length : Int) - off < params.length) :=
              fun hlt => hc1 ⟨rfl, hlt⟩
            omega

theorem Inv_reset (c : Cursor) (f : Bool) (p : Option CErr) :
    Inv (resetcursor c f p).1 := by
  refine ⟨fun _ => (resetcursor_fields c f p).2.1, fun l hb hne => ?_⟩
  rw [(resetcursor_fields c f p).2.2.1] at hb
  simp at hb

theorem Inv_some_statement (c : Cursor) (st : Statement) (hs : c.statement = some st)
    (hoffb : ∀ l, c.bindings = some (Bindings.seq l) →
       0 ≤ c.bindingsoffset ∧ c.bindingsoffset ≤ (l.length : Int)) :
    Inv c := by
  refine ⟨fun hnone => ?_, fun l hb hne => hoffb l hb⟩
  rw [hs] at hnone
  exact absurd hnone (by simp)

theorem Inv_begin (c : Cursor) (h : Inv c) (hs : c.statement ≠ none) :
    Inv { c with status := CStatus.BEGIN } := by
  refine ⟨fun hnone => absurd hnone hs, fun l hb hne => h.2 l hb hs⟩

theorem bindTrace_Inv (c : Cursor) (st : Statement) (hs : c.statement = some st)
    (hoff : ∀ l, c.bindings = some (Bindings.seq l) →
       0 ≤ c.bindingsoffset ∧ c.bindingsoffset ≤ (l.length : Int)) :
    Inv (bindTrace c).1 ∧ Inv { (bindTrace c).1 with status := CStatus.BEGIN } := by
  have hst2 := (dobindingsApply_statement c st hs).1
  have hoff2 := (dobindingsApply_statement c st hs).2.1
  have hbnd := (dobindingsApply_fields c).1
  rw [← bindTrace_fst] at hst2 hoff2 hbnd
  have hoffb : ∀ l, (bindTrace c).1.bindings = some (Bindings.seq l) →
      0 ≤ (bindTrace c).1.bindingsoffset ∧
      (bindTrace c).1.bindingsoffset ≤ (l.length : Int) := by
    intro l hb
    rw [hbnd] at hb
    rw [hoff2, hb]
    exact dobindingsCore_newoff_seq _ _ _ _ (hoff l hb).1 (hoff l hb).2
  have h1 := Inv_some_statement (bindTrace c).1 _ hst2 hoffb
  exact ⟨h1, Inv_begin _ h1 (by rw [hst2]; simp)⟩

theorem stepAdvance_inv (c1 : Cursor) (nextq : List StmtSpec)
    (h : Inv c1) (hstmt : c1.statement ≠ none)
    (hdone : c1.status = CStatus.DONE) :
    Inv (stepAdvance c1 nextq).cursor := by
  unfold stepAdvance
  split
  · split
    · exact Inv_reset _ _ _
    · exact Inv_reset _ _ _
    · rename_i x rest heme
      try dsimp only
      split
      · exact ⟨fun _ => hdone, fun l hb hne => Option.noConfusion hb⟩
      · rename_i b htb
        try dsimp only
        split
        · exact ⟨fun _ => hdone, fun l hb hne => absurd rfl hne⟩
        · rename_i q hemq
          split
          · exact ⟨fun _ => hdone, fun l hb hne => absurd rfl hne⟩
          · rename_i st2 hpq
            try dsimp only
            split
            · exact (bindTrace_Inv { c1 with statement := some st2, bindings := some b, bindingsoffset := 0, emiter := some rest } st2 rfl
                (fun l hb => ⟨le_refl 0, Int.natCast_nonneg _⟩)).1
            · exact (bindTrace_Inv { c1 with statement := some st2, bindings := some b, bindingsoffset := 0, emiter := some rest } st2 rfl
                (fun l hb => ⟨le_refl 0, Int.natCast_nonneg _⟩)).2
  · rename_i s2 restq
    try dsimp only
    split
    · exact (bindTrace_Inv { c1 with statement := some ⟨s2, restq, [], false, [], none⟩ } ⟨s2, restq, [], false, [], none⟩ rfl
        (fun l hb => h.2 l hb hstmt)).1
    · exact (bindTrace_Inv { c1 with statement := some ⟨s2, restq, [], false, [], none⟩ } ⟨s2, restq, [], false, [], none⟩ rfl
        (fun l hb => h.2 l hb hstmt)).2

theorem stepLoopF_inv : ∀ (fuel : Nat) (c : Cursor), Inv c → Inv (stepLoopF fuel c).1 := by
  intro fuel
  induction fuel with
  | zero => intro c h; exact h
  | succ n ih =>
      intro c h
      rw [stepLoopF]
      split
      · exact h
      · rename_i st hst
        try dsimp only
        split
        · refine ⟨fun hnone => absurd hnone (by simp), fun l hb hne => ?_⟩
          exact h.2 l hb (by rw [hst]; simp)
        · split
          · rename_i c2 e hsa
            have h1 := stepAdvance_inv
              { c with statement := some (sqliteStep st).2, status := CStatus.DONE }
              (sqliteStep st).2.next
              ⟨fun hnone => absurd hnone (by simp),
               fun l hb hne => h.2 l hb (by rw [hst]; simp)⟩
              (by simp) rfl
            rw [hsa] at h1
            exact h1
          · rename_i c2 hsa
            have h1 := stepAdvance_inv
              { c with statement := some (sqliteStep st).2, status := CStatus.DONE }
              (sqliteStep st).2.next
              ⟨fun hnone => absurd hnone (by simp),
               fun l hb hne => h.2 l hb (by rw [hst]; simp)⟩
              (by simp) rfl
            rw [hsa] at h1
            exact ih c2 h1

theorem stepLoop_inv (c : Cursor) (h : Inv c) : Inv (stepLoop c).1 :=
  stepLoopF_inv _ c h

end APSW

namespace APSW

theorem execute_inv (c : Cursor) (q : Query) (b : Option PyObj) (h : Inv c) :
    Inv (execute c q b).1 := by
  unfold execute
  split
  · exact h
  · try dsimp only
    split
    · exact Inv_reset c false none
    · split
      · exact Inv_reset c false none
      · rename_i ob hob
        try dsimp only
        split
        · refine ⟨fun _ => (resetcursor_fields c false none).2.1, fun l hb hne => ?_⟩
          exact absurd (resetcursor_fields c false none).1 hne
        · rename_i st hprep
          try dsimp only
          split
          · exact (bindTrace_Inv { (resetcursor c false none).1 with bindings := ob, statement := some st, bindingsoffset := 0 } st rfl
              (fun l hb => ⟨le_refl 0, Int.natCast_nonneg _⟩)).1
          · exact stepLoopF_inv _ _
              (bindTrace_Inv { (resetcursor c false none).1 with bindings := ob, statement := some st, bindingsoffset := 0 } st rfl
                (fun l hb => ⟨le_refl 0, Int.natCast_nonneg _⟩)).2

theorem executemany_inv (c : Cursor) (q : Query) (src : List PyObj) (h : Inv c) :
    Inv (executemany c q src).1 := by
  unfold executemany
  split
  · exact h
  · try dsimp only
    split
    · exact Inv_reset c false none
    · try dsimp only
      split
      · refine ⟨fun _ => (resetcursor_fields c false none).2.1, fun l hb hne => ?_⟩
        exact absurd (resetcursor_fields c false none).1 hne
      · rename_i x rest
        try dsimp only
        split
        · refine ⟨fun _ => (resetcursor_fields c false none).2.1, fun l hb hne => ?_⟩
          exact absurd (resetcursor_fields c false none).1 hne
        · rename_i bb htb
          try dsimp only
          split
          · refine ⟨fun _ => (resetcursor_fields c false none).2.1, fun l hb hne => ?_⟩
            exact absurd (resetcursor_fields c false none).1 hne
          · rename_i st hpq
            try dsimp only
            split
            · exact (bindTrace_Inv { (resetcursor c false none).1 with emiter := some rest, bindings := some bb, statement := some st, emoriginalquery := some q, bindingsoffset := 0 } st rfl
                (fun l hb => ⟨le_refl 0, Int.natCast_nonneg _⟩)).1
            · exact stepLoopF_inv _ _
                (bindTrace_Inv { (resetcursor c false none).1 with emiter := some rest, bindings := some bb, statement := some st, emoriginalquery := some q, bindingsoffset := 0 } st rfl
                  (fun l hb => ⟨le_refl 0, Int.natCast_nonneg _⟩)).2

theorem nextLoopF_inv : ∀ (fuel : Nat) (c : Cursor), Inv c → Inv (nextLoopF fuel c).1 := by
  intro fuel
  induction fuel with
  | zero => intro c h; exact h
  | succ n ih =>
      intro c h
      rw [nextLoopF]
      try dsimp only
      by_cases hb : c.status = CStatus.BEGIN
      · rw [if_pos hb]
        have hinv1 : Inv (stepLoop c).1 := stepLoop_inv c h
        split
        · exact hinv1
        · split
          · exact hinv1
          · rename_i hnd
            have hsne : (stepLoop c).1.statement ≠ none := fun hn => hnd (hinv1.1 hn)
            split
            · exact Inv_begin _ hinv1 hsne
            · split
              · exact ih _ (Inv_begin _ hinv1 hsne)
              · exact Inv_begin _ hinv1 hsne
      · rw [if_neg hb]
        try dsimp only
        split
        · exact h
        · rename_i hnd
          have hsne : c.statement ≠ none := fun hn => hnd (h.1 hn)
          split
          · exact Inv_begin _ h hsne
          · split
            · exact ih _ (Inv_begin _ h hsne)
            · exact Inv_begin _ h hsne

theorem next_inv (c : Cursor) (h : Inv c) : Inv (next c).1 := by
  unfold next
  split
  · exact h
  · exact nextLoopF_inv _ _ h

theorem close_inv (c : Cursor) (f : Bool) (p : Option CErr) (h : Inv c) :
    Inv (close c f p).1 := by
  unfold close
  split
  · exact h
  · exact Inv_reset c f p

/-- Counterexample to C8 as stated: after `execute` fails to prepare its
statement text while a flat-sequence bindings argument was supplied
(`resetcursor` has set the offset to `-1` and the bindings are retained),
the reachable cursor has sequence bindings with `bindingsoffset = -1`,
outside `[0, len(bindings)]`. -/
theorem claim_C8_counterexample :
    Reachable (execute initialCursor [] (some (.seq [.vint 1]))).1 ∧
    (execute initialCursor [] (some (.seq [.vint 1]))).1.bindings =
      some (.seq [.vint 1]) ∧
    (execute initialCursor [] (some (.seq [.vint 1]))).1.bindingsoffset = -1 ∧
    ¬ (0 ≤ (execute initialCursor [] (some (.seq [.vint 1]))).1.bindingsoffset) := by
  refine ⟨Reachable.exec [] (some (.seq [.vint 1])) Reachable.init,
    by decide, by decide, by decide⟩

/-- C8 amended: every cursor state reachable by the public operations
holds at most one statement (structurally, the `statement` field); when no
statement is held the state is `DONE`; and whenever bindings is a flat
sequence while a statement is held, `bindingsoffset` lies within
`[0, len(bindings)]`.  (Without the statement-held qualifier the claim
fails: a failed prepare leaves sequence bindings with offset `-1`.) -/
theorem claim_C8_amended (c : Cursor) (hr : Reachable c) :
    (c.statement = none → c.status = CStatus.DONE) ∧
    (∀ l, c.bindings = some (Bindings.seq l) → c.statement ≠ none →
       0 ≤ c.bindingsoffset ∧ c.bindingsoffset ≤ (l.length : Int)) := by
  induction hr with
  | init => exact ⟨fun _ => rfl, fun l hb hne => by simp [initialCursor] at hb⟩
  | exec q b _ ih => exact execute_inv _ q b ih
  | em q src _ ih => exact executemany_inv _ q src ih
  | fetch _ ih => exact next_inv _ ih
  | doClose f _ ih => exact close_inv _ f none ih
  | setET f _ ih => exact ih
  | setRT f _ ih => exact ih
  | connClose _ ih => exact ih

/-- Witness for the amended C8 at the reachable cursor paused on the first
row of `select 1; select 2` executed with an empty sequence binding. -/
theorem claim_C8_witness :
    0 ≤ (execute initialCursor exQ2 (some (.seq []))).1.bindingsoffset ∧
    (execute initialCursor exQ2 (some (.seq []))).1.bindingsoffset ≤
      ((([] : List PyValue)).length : Int) :=
  (claim_C8_amended (execute initialCursor exQ2 (some (.seq []))).1
    (Reachable.exec exQ2 (some (.seq [])) Reachable.init)).2 [] (by decide) (by decide)

end APSW
